import Mathlib

/-!
Shallow embedding of the AoS/SoA data-layout container (src/main.cpp).

The C++ code provides, for a record type TItem<Types...> with one field per
template argument, two layout policies:

* DataLayoutPolicy<Container, DataLayout::AoS, TItem<Types...>> stores a single
  dynamic array of whole records (type = Container<TItem<Types...>>);
* DataLayoutPolicy<Container, DataLayout::SoA, TItem<Types...>> stores one
  dynamic array per field (type = std::tuple<Container<Types>...>).

BaseContainer owns one such storage and delegates push_back, resize, size and
operator[] to the policy.  Iterator is a position-based cursor holding a raw
container pointer and a std::size_t position.

We model a record type by a family F : Fin (n + 1) → Type of field types (the
parameter pack is nonempty: the SoA policy reads std::get<0> in size(), which
requires at least one field).  A record value is a dependent function giving
each field, machine sizes are Nat, and the one place where the C++ code narrows
an integer type (doResize takes the new size as unsigned, a 32-bit type, while
resize and std::vector::resize take std::size_t) is modelled by reduction
mod 2 ^ 32.  std::vector operations become List operations; out-of-bounds
element access, which is undefined behaviour in C++, is observed as none.
-/

universe u

/-- Models std::vector resize with value initialization: the first m existing
elements are kept, and when growing, default-constructed values d are appended. -/
def listResize {α : Type u} (l : List α) (m : Nat) (d : α) : List α :=
  l.take m ++ List.replicate (m - l.length) d

/-- A record of the item type TItem<Types...>: field i has type F i. -/
abbrev ItemT {n : Nat} (F : Fin (n + 1) → Type u) : Type u :=
  ∀ i, F i

/-- AoS storage, from the AoS policy: type = Container<TItem<Types...>>, a single
dynamic array of whole records. -/
abbrev AoSStorage {n : Nat} (F : Fin (n + 1) → Type u) : Type u :=
  List (ItemT F)

/-- SoA storage, from the SoA policy: type = std::tuple<Container<Types>...>, one
dynamic array per field, in field declaration order. -/
abbrev SoAStorage {n : Nat} (F : Fin (n + 1) → Type u) : Type u :=
  ∀ i, List (F i)

variable {n : Nat} {F : Fin (n + 1) → Type u}

/-- AoS size: the AoS policy returns c_.size(), the length of the record array. -/
def aosSize (a : AoSStorage F) : Nat :=
  a.length

/-- SoA size: the SoA policy returns std::get<0>(c_).size(), the length of the
first per-field array only. -/
def soaSize (s : SoAStorage F) : Nat :=
  (s 0).length

/-- AoS resize: the AoS policy forwards the std::size_t argument unchanged to
the backing vector. -/
def aosResize (d : ItemT F) (a : AoSStorage F) (m : Nat) : AoSStorage F :=
  listResize a m d

/-- SoA resize: the SoA policy forwards its std::size_t argument to doResize,
whose parameter is declared unsigned (32 bits), so every per-field array is
resized to m mod 2 ^ 32; the fold expression resizes each field in order. -/
def soaResize (d : ItemT F) (s : SoAStorage F) (m : Nat) : SoAStorage F :=
  fun i => listResize (s i) (m % 2 ^ 32) (d i)

/-- AoS push_back: appends the whole record to the record array. -/
def aosPushBack (a : AoSStorage F) (v : ItemT F) : AoSStorage F :=
  a ++ [v]

/-- SoA push_back: doPushBack appends std::get<i>(val) to the array of field i,
for every field, via a fold expression. -/
def soaPushBack (s : SoAStorage F) (v : ItemT F) : SoAStorage F :=
  fun i => s i ++ [v i]

/-- Observation of field j at a position of an AoS storage: operator[] returns a
reference to the record c_[pos] and the client projects field j from it.
Out-of-bounds access is undefined behaviour in C++ and is observed as none. -/
def aosObs (a : AoSStorage F) (pos : Nat) (j : Fin (n + 1)) : Option (F j) :=
  (a[pos]?).map fun x => x j

/-- Observation of field j at a position of an SoA storage: doGet builds an
element view whose field j is ref_wrap(std::get<j>(c_)[pos]), so reading that
field reads std::get<j>(c_)[pos].  Out of bounds is observed as none. -/
def soaObs (s : SoAStorage F) (pos : Nat) (j : Fin (n + 1)) : Option (F j) :=
  (s j)[pos]?

/-- Writing field j of the record at a position of an AoS storage: operator[]
yields a reference to the stored record and the field assignment updates that
field in place.  The out-of-bounds case is undefined behaviour in C++; it is
modelled as leaving the storage unchanged. -/
def aosFieldWrite (a : AoSStorage F) (pos : Nat) (j : Fin (n + 1)) (v : F j) : AoSStorage F :=
  if h : pos < a.length then a.set pos (Function.update (a.get ⟨pos, h⟩) j v) else a

/-- Writing field j at a position of an SoA storage through the element view:
the view holds ref_wrap(std::get<j>(c_)[pos]) and assigning an rvalue to it
writes through the reference, updating only the array of field j at pos.
List.set leaves the list unchanged out of bounds, matching the model choice
for undefined behaviour. -/
def soaFieldWrite (s : SoAStorage F) (pos : Nat) (j : Fin (n + 1)) (v : F j) : SoAStorage F :=
  Function.update s j ((s j).set pos v)

/-- BaseContainer construction with an initial size: the constructor
default-initializes the storage (empty arrays) and then calls resize(size_),
dispatching to the AoS policy. -/
def aosConstruct (d : ItemT F) (N : Nat) : AoSStorage F :=
  aosResize d [] N

/-- BaseContainer construction with an initial size for the SoA layout: an
empty tuple of arrays resized through the SoA policy (hence mod 2 ^ 32). -/
def soaConstruct (d : ItemT F) (N : Nat) : SoAStorage F :=
  soaResize d (fun _ => []) N

/-- One client-visible mutation of a container: push_back of a record, resize to
a requested std::size_t, or a field write through the element view returned by
operator[]. -/
inductive LOp {n : Nat} (F : Fin (n + 1) → Type u) : Type u where
  | pushBack (v : ItemT F)
  | resize (m : Nat)
  | fieldWrite (pos : Nat) (j : Fin (n + 1)) (v : F j)

/-- An operation is truncation-free when any resize argument fits in the
unsigned parameter of the SoA doResize. -/
def LOp.resizeOk : LOp F → Bool
  | .resize m => decide (m < 2 ^ 32)
  | _ => true

/-- Apply one operation to an AoS container. -/
def aosStep (d : ItemT F) (a : AoSStorage F) : LOp F → AoSStorage F
  | .pushBack v => aosPushBack a v
  | .resize m => aosResize d a m
  | .fieldWrite pos j v => aosFieldWrite a pos j v

/-- Apply one operation to an SoA container. -/
def soaStep (d : ItemT F) (s : SoAStorage F) : LOp F → SoAStorage F
  | .pushBack v => soaPushBack s v
  | .resize m => soaResize d s m
  | .fieldWrite pos j v => soaFieldWrite s pos j v

/-- Apply a sequence of operations to an AoS container, first to last. -/
def aosRun (d : ItemT F) (ops : List (LOp F)) (a : AoSStorage F) : AoSStorage F :=
  ops.foldl (aosStep d) a

/-- Apply a sequence of operations to an SoA container, first to last. -/
def soaRun (d : ItemT F) (ops : List (LOp F)) (s : SoAStorage F) : SoAStorage F :=
  ops.foldl (soaStep d) s

/-- Two containers of the two layouts are observationally equal when every field
at every position reads the same. -/
def ObsEq (a : AoSStorage F) (s : SoAStorage F) : Prop :=
  ∀ pos j, aosObs a pos j = soaObs s pos j

/-- The Iterator class of src/main.cpp: a raw pointer to the owning container
(modelled as an optional container identifier, none for nullptr) and a
std::size_t position. -/
structure IteratorM where
  mContainer : Option Nat
  mIterPosition : Nat
deriving DecidableEq

/-- The value std::numeric_limits of std::size_t .infinity() used by the
iterator code as its null sentinel: for integral types the standard defines
infinity() to return T(), that is 0, not the maximal value. -/
def numLimitsInfinitySizeT : Nat := 0

/-- A default-constructed Iterator: the member initializers set mContainer to
nullptr and mIterPosition to numeric_limits infinity of size_t. -/
def defaultIterM : IteratorM :=
  { mContainer := none, mIterPosition := numLimitsInfinitySizeT }

/-- Assignment of nullptr to an iterator: sets mIterPosition to the
numeric_limits infinity of size_t, leaving the container pointer alone. -/
def iterAssignNull (it : IteratorM) : IteratorM :=
  { it with mIterPosition := numLimitsInfinitySizeT }

/-- BaseContainer begin(): an iterator on this container at position 0. -/
def beginIterM (cid : Nat) : IteratorM :=
  { mContainer := some cid, mIterPosition := 0 }

/-- BaseContainer end(): an iterator on this container at position size(). -/
def endIterM (cid : Nat) (sz : Nat) : IteratorM :=
  { mContainer := some cid, mIterPosition := sz }

/-- Iterator inequality: defined purely on the numeric positions, ignoring the
container pointers. -/
def iterNeB (l r : IteratorM) : Bool :=
  l.mIterPosition != r.mIterPosition

/-- Iterator increment: operator++ delegates to operator+=(1), adding one to the
position and leaving the container pointer alone. -/
def iterIncM (it : IteratorM) : IteratorM :=
  { it with mIterPosition := it.mIterPosition + 1 }

/-- Iterator copy assignment: the body copies mIterPosition only; the line that
would copy mContainer is commented out in the source. -/
def iterAssignM (dst src : IteratorM) : IteratorM :=
  { dst with mIterPosition := src.mIterPosition }

/-- A range-for loop over [first, last): while first != last, dereference first
and increment it.  The fuel argument bounds the number of steps so that the
function is total; any fuel at least the distance from first to last yields
the full walk. -/
def iterLoop : Nat → IteratorM → IteratorM → List Nat
  | 0, _, _ => []
  | fuel + 1, it, stop =>
    if iterNeB it stop then it.mIterPosition :: iterLoop fuel (iterIncM it) stop else []

/-- Iterator dereference: operator* returns (*mContainer)[mIterPosition], the
indexed access of the owning container at the current position.  The container
pointer is modelled as an identifier resolved through a store, and the indexed
access as an abstract access function; dereferencing a nullptr iterator is
undefined behaviour, observed as none. -/
def iterDeref {γ δ : Type u} (store : Nat → γ) (access : γ → Nat → δ)
    (it : IteratorM) : Option δ :=
  it.mContainer.map fun cid => access (store cid) it.mIterPosition

/-- Where a ref_wrap proxy is bound: to element i of the per-field array of the
SoA storage, or to a client-side local variable of the field type. -/
inductive RWTarget where
  | arrElem (i : Nat)
  | localVar
deriving DecidableEq

/-- The ref_wrap proxy of src/main.cpp: a std::reference_wrapper, that is a
stored pointer to the referenced object, modelled as the target it is bound
to. -/
structure RefWrapS where
  target : RWTarget
deriving DecidableEq

/-- The memory a ref_wrap can point into: one per-field array of an SoA
container, plus one client-side local variable of the same field type. -/
structure RWMem (α : Type u) where
  arr : List α
  localVar : α

/-- The proxy built by the SoA doGet for one field at a position:
ref_wrap(std::get<j>(c_)[position_]), bound to the array element. -/
def soaProxyAt (pos : Nat) : RefWrapS :=
  { target := RWTarget.arrElem pos }

/-- The user-declared assignment operator of ref_wrap, operator=(T&&): it only
accepts rvalues and writes the value through the stored reference into the
bound object. -/
def refWrapWriteRval {α : Type u} (m : RWMem α) (r : RefWrapS) (v : α) : RWMem α :=
  match r.target with
  | RWTarget.arrElem i => { m with arr := m.arr.set i v }
  | RWTarget.localVar => { m with localVar := v }

/-- Assigning an lvalue of the field type to a ref_wrap proxy.  C++ overload
resolution cannot pick operator=(T&&) for an lvalue argument; instead the
converting constructor ref_wrap(T&) wraps the lvalue in a temporary proxy and
the implicitly generated (move) assignment operator copies that temporary over
the proxy, rebinding the stored reference of std::reference_wrapper to the
lvalue.  No memory cell is written: the result is the rebound proxy and the
unchanged memory. -/
def refWrapAssignLval {α : Type u} (m : RWMem α) (_r : RefWrapS) : RefWrapS × RWMem α :=
  ({ target := RWTarget.localVar }, m)

/-- Concrete one-field record type used for concrete evaluations: a single Nat
field. -/
abbrev FNat1 : Fin 1 → Type := fun _ => Nat

/-- Default record for FNat1: value-initialized fields (0). -/
def dNat1 : ItemT FNat1 := fun _ => 0

/-- Concrete two-field record type used for concrete evaluations: two Nat
fields. -/
abbrev FNat2 : Fin 2 → Type := fun _ => Nat

/-- Default record for FNat2: value-initialized fields (0). -/
def dNat2 : ItemT FNat2 := fun _ => 0

/-- Concrete operation sequence used to instantiate the cross-layout theorem. -/
def opsW1 : List (LOp FNat2) :=
  [LOp.pushBack (fun _ => 5), LOp.fieldWrite 0 0 7]

/-- Concrete empty SoA storage over FNat2. -/
def sW2 : SoAStorage FNat2 := fun _ => []

/-- Concrete record pushed in concrete evaluations. -/
def vW2 : ItemT FNat2 := fun _ => 7

/-- Concrete one-record AoS storage over FNat2. -/
def aW4 : AoSStorage FNat2 := [fun _ => 0]

/-- Concrete one-record SoA storage over FNat2. -/
def sW4 : SoAStorage FNat2 := fun _ => [0]

theorem listResize_length {α : Type u} (l : List α) (m : Nat) (d : α) :
    (listResize l m d).length = m := by
  simp only [listResize, List.length_append, List.length_take, List.length_replicate]
  omega

theorem listResize_getElem?_lt {α : Type u} {l : List α} {m p : Nat} (d : α)
    (hm : p < m) (hl : p < l.length) :
    (listResize l m d)[p]? = l[p]? := by
  simp only [listResize, List.getElem?_append, List.length_take, List.getElem?_take]
  rw [if_pos (by omega), if_pos hm]

theorem listResize_getElem?_default {α : Type u} {l : List α} {m p : Nat} (d : α)
    (hm : p < m) (hl : l.length ≤ p) :
    (listResize l m d)[p]? = some d := by
  simp only [listResize, List.getElem?_append, List.length_take, List.getElem?_take,
    List.getElem?_replicate]
  rw [if_neg (by omega), if_pos (by omega)]

theorem listResize_getElem?_ge {α : Type u} {l : List α} {m p : Nat} (d : α) (hm : m ≤ p) :
    (listResize l m d)[p]? = none :=
  List.getElem?_eq_none (by rw [listResize_length]; exact hm)

theorem obsEq_length {a : AoSStorage F} {s : SoAStorage F} (h : ObsEq a s) (j : Fin (n + 1)) :
    (s j).length = a.length := by
  have hiff : ∀ p : Nat, p < a.length ↔ p < (s j).length := by
    intro p
    have hp := h p j
    simp only [aosObs, soaObs] at hp
    constructor
    · intro hlt
      by_contra hge
      rw [List.getElem?_eq_getElem hlt, List.getElem?_eq_none (by omega)] at hp
      simp at hp
    · intro hlt
      by_contra hge
      rw [List.getElem?_eq_none (by omega), List.getElem?_eq_getElem hlt] at hp
      simp at hp
  have h1 := hiff a.length
  have h2 := hiff (s j).length
  omega

theorem obsEq_pushBack {a : AoSStorage F} {s : SoAStorage F} (h : ObsEq a s) (v : ItemT F) :
    ObsEq (aosPushBack a v) (soaPushBack s v) := by
  intro p j
  have hlen := obsEq_length h j
  have hp := h p j
  simp only [aosObs, soaObs] at hp ⊢
  simp only [aosPushBack, soaPushBack, List.getElem?_append]
  rcases Nat.lt_trichotomy p a.length with hc | hc | hc
  · rw [if_pos hc, if_pos (by omega)]
    exact hp
  · subst hc
    rw [if_neg (by omega), if_neg (by omega)]
    simp [hlen]
  · rw [if_neg (by omega), if_neg (by omega),
      List.getElem?_eq_none (by simp; omega), List.getElem?_eq_none (by simp; omega)]
    simp

theorem obsEq_resize {a : AoSStorage F} {s : SoAStorage F} (h : ObsEq a s) (d : ItemT F)
    {m : Nat} (hm : m < 2 ^ 32) :
    ObsEq (aosResize d a m) (soaResize d s m) := by
  intro p j
  have hlen := obsEq_length h j
  have hp := h p j
  simp only [aosObs, soaObs] at hp ⊢
  simp only [aosResize, soaResize, Nat.mod_eq_of_lt hm]
  rcases Nat.lt_or_ge p m with hpm | hpm
  · rcases Nat.lt_or_ge p a.length with hpl | hpl
    · rw [listResize_getElem?_lt d hpm hpl, listResize_getElem?_lt (d j) hpm (by omega)]
      exact hp
    · rw [listResize_getElem?_default d hpm hpl, listResize_getElem?_default (d j) hpm (by omega)]
      simp
  · rw [listResize_getElem?_ge d hpm, listResize_getElem?_ge (d j) hpm]
    simp

theorem obsEq_fieldWrite {a : AoSStorage F} {s : SoAStorage F} (h : ObsEq a s)
    (pos : Nat) (j : Fin (n + 1)) (v : F j) :
    ObsEq (aosFieldWrite a pos j v) (soaFieldWrite s pos j v) := by
  intro p j'
  have hlenj := obsEq_length h j
  have hp' := h p j'
  simp only [aosObs, soaObs] at hp' ⊢
  simp only [aosFieldWrite, soaFieldWrite]
  by_cases hb : pos < a.length
  · rw [dif_pos hb]
    by_cases hj : j' = j
    · subst hj
      rw [Function.update_same, List.getElem?_set, List.getElem?_set]
      by_cases hpp : pos = p
      · rw [if_pos hpp, if_pos hpp, if_pos hb, if_pos (by omega)]
        simp
      · rw [if_neg hpp, if_neg hpp]
        exact hp'
    · rw [Function.update_noteq hj, List.getElem?_set]
      by_cases hpp : pos = p
      · subst hpp
        rw [if_pos rfl, if_pos hb]
        have hpj := h pos j'
        simp only [aosObs, soaObs] at hpj
        rw [List.getElem?_eq_getElem hb] at hpj
        rw [← hpj]
        simp [Function.update_noteq hj]
      · rw [if_neg hpp]
        exact hp'
  · rw [dif_neg hb]
    by_cases hj : j' = j
    · subst hj
      rw [Function.update_same, List.getElem?_set]
      by_cases hpp : pos = p
      · subst hpp
        rw [if_pos rfl, if_neg (by omega), List.getElem?_eq_none (by omega)]
        simp
      · rw [if_neg hpp]
        exact hp'
    · rw [Function.update_noteq hj]
      exact hp'

theorem obsEq_step {a : AoSStorage F} {s : SoAStorage F} (d : ItemT F) (op : LOp F)
    (h : ObsEq a s) (hok : op.resizeOk = true) :
    ObsEq (aosStep d a op) (soaStep d s op) := by
  cases op with
  | pushBack v => exact obsEq_pushBack h v
  | resize m => exact obsEq_resize h d (by simpa [LOp.resizeOk] using hok)
  | fieldWrite pos j v => exact obsEq_fieldWrite h pos j v

theorem obsEq_run (d : ItemT F) :
    ∀ (ops : List (LOp F)) (a : AoSStorage F) (s : SoAStorage F),
      ObsEq a s → ops.all LOp.resizeOk = true → ObsEq (aosRun d ops a) (soaRun d ops s)
  | [], _, _, h, _ => h
  | op :: ops, a, s, h, hok => by
    rw [List.all_cons, Bool.and_eq_true] at hok
    exact obsEq_run d ops _ _ (obsEq_step d op h hok.1) hok.2

theorem soaStep_uniform (d : ItemT F) (op : LOp F) (s : SoAStorage F)
    (h : ∀ i, (s i).length = (s 0).length) (i : Fin (n + 1)) :
    ((soaStep d s op) i).length = ((soaStep d s op) 0).length := by
  cases op with
  | pushBack v => simp [soaStep, soaPushBack, h i]
  | resize m => simp [soaStep, soaResize, listResize_length]
  | fieldWrite pos j v =>
    simp only [soaStep, soaFieldWrite]
    have hk : ∀ k, (Function.update s j ((s j).set pos v) k).length = (s k).length := by
      intro k
      by_cases hkj : k = j
      · subst hkj
        rw [Function.update_same, List.length_set]
      · rw [Function.update_noteq hkj]
    rw [hk i, hk 0]
    exact h i

theorem soaRun_uniform (d : ItemT F) :
    ∀ (ops : List (LOp F)) (s : SoAStorage F),
      (∀ i, (s i).length = (s 0).length) →
      ∀ i, ((soaRun d ops s) i).length = ((soaRun d ops s) 0).length
  | [], _, h => h
  | op :: ops, s, h => soaRun_uniform d ops _ (soaStep_uniform d op s h)

theorem iterLoop_eq_range' (o1 o2 : Option Nat) :
    ∀ (k fuel pos : Nat), k ≤ fuel →
      iterLoop fuel { mContainer := o1, mIterPosition := pos }
        { mContainer := o2, mIterPosition := pos + k } = List.range' pos k := by
  intro k
  induction k with
  | zero =>
    intro fuel pos hk
    cases fuel with
    | zero => rfl
    | succ f => simp [iterLoop, iterNeB]
  | succ k ih =>
    intro fuel pos hk
    cases fuel with
    | zero => exact absurd hk (by omega)
    | succ f =>
      rw [List.range'_succ]
      simp only [iterLoop, iterNeB, iterIncM]
      rw [if_pos (by simp [bne_iff_ne])]
      have h := ih f (pos + 1) (by omega)
      rw [show pos + 1 + k = pos + (k + 1) by omega] at h
      simp only [h]

/-- Claim C1 (amended): for every item type, every observationally equal pair of
an AoS container and an SoA container, and every identical sequence of
push_back, resize and field-write operations in which every resize argument is
below 2 ^ 32, the observed field values at every position are identical after
each step (each prefix) of the sequence.  The bound is forced by the unsigned
parameter of the SoA doResize; without it the claim fails, see the
counterexample. -/
theorem C1_cross_layout_equivalence (d : ItemT F) (a0 : AoSStorage F) (s0 : SoAStorage F)
    (ops : List (LOp F)) (h0 : ObsEq a0 s0) (hok : ops.all LOp.resizeOk = true) (k : Nat) :
    ObsEq (aosRun d (ops.take k) a0) (soaRun d (ops.take k) s0) := by
  apply obsEq_run d (ops.take k) a0 s0 h0
  rw [List.all_eq_true] at hok ⊢
  exact fun op hop => hok op (List.take_subset k ops hop)

/-- Claim C1, counterexample to the claim as stated: starting from two empty
containers (which agree everywhere), the single operation resize(2 ^ 32) leaves
the AoS container with 2 ^ 32 records (position 0 reads the default 0) while
every SoA per-field array is resized to 2 ^ 32 mod 2 ^ 32 = 0 elements
(position 0 reads nothing), so the observed field values differ at position 0
after this step. -/
theorem C1_counterexample :
    aosObs (aosRun dNat1 [LOp.resize (2 ^ 32)] (aosConstruct dNat1 0)) 0 0 = some 0 ∧
    soaObs (soaRun dNat1 [LOp.resize (2 ^ 32)] (soaConstruct dNat1 0)) 0 0 = none := by
  constructor
  · show aosObs (aosResize dNat1 (aosConstruct dNat1 0) (2 ^ 32)) 0 0 = some 0
    have h1 : aosConstruct dNat1 0 = [] := rfl
    rw [h1]
    simp only [aosObs, aosResize]
    rw [listResize_getElem?_default dNat1 (by norm_num) (by simp)]
    rfl
  · show soaObs (soaResize dNat1 (soaConstruct dNat1 0) (2 ^ 32)) 0 0 = none
    simp only [soaObs, soaResize]
    rw [Nat.mod_self]
    exact listResize_getElem?_ge _ (Nat.zero_le 0)

/-- Claim C1, witness: the amended theorem applied to two empty containers over
a concrete two-field item type and a concrete truncation-free operation
sequence, observed after its second step. -/
theorem C1_witness :
    ObsEq (aosRun dNat2 (opsW1.take 2) []) (soaRun dNat2 (opsW1.take 2) fun _ => []) :=
  C1_cross_layout_equivalence dNat2 [] (fun _ => []) opsW1 (fun _ _ => rfl) (by decide) 2

/-- Claim C2: for an SoA container built by the constructor and mutated by any
sequence of operations that completes (the model has no allocation failures),
every per-field array has the same length, and that common length equals
size(), which reads only the first per-field array. -/
theorem C2_soa_length_invariant (d : ItemT F) (N : Nat) (ops : List (LOp F)) (j : Fin (n + 1)) :
    ((soaRun d ops (soaConstruct d N)) j).length = soaSize (soaRun d ops (soaConstruct d N)) := by
  have h0 : ∀ i, ((soaConstruct d N) i).length = ((soaConstruct d N) 0).length := by
    intro i
    simp [soaConstruct, soaResize, listResize_length]
  exact soaRun_uniform d ops _ h0 j

/-- Claim C3: on a container of size N (for SoA, one satisfying the equal-length
invariant that every container reachable through the interface satisfies),
push_back(v) makes size() equal N + 1 and indexed access at position N reads
back every field of v, for both layouts. -/
theorem C3_push_back_appends (a : AoSStorage F) (s : SoAStorage F) (v : ItemT F)
    (hinv : ∀ i, (s i).length = soaSize s) :
    aosSize (aosPushBack a v) = aosSize a + 1 ∧
    (∀ j, aosObs (aosPushBack a v) (aosSize a) j = some (v j)) ∧
    soaSize (soaPushBack s v) = soaSize s + 1 ∧
    ∀ j, soaObs (soaPushBack s v) (soaSize s) j = some (v j) := by
  refine ⟨?_, fun j => ?_, ?_, fun j => ?_⟩
  · simp [aosSize, aosPushBack]
  · simp [aosObs, aosPushBack, aosSize, List.getElem?_concat_length]
  · simp [soaSize, soaPushBack]
  · simp only [soaObs, soaPushBack]
    rw [← hinv j, List.getElem?_concat_length]

/-- Claim C3, witness: pushing a concrete record onto concrete empty containers
of both layouts. -/
theorem C3_witness :
    (∀ i, (sW2 i).length = soaSize sW2) ∧
    (aosSize (aosPushBack ([] : AoSStorage FNat2) vW2) = aosSize ([] : AoSStorage FNat2) + 1 ∧
     (∀ j, aosObs (aosPushBack ([] : AoSStorage FNat2) vW2) (aosSize ([] : AoSStorage FNat2)) j =
       some (vW2 j)) ∧
     soaSize (soaPushBack sW2 vW2) = soaSize sW2 + 1 ∧
     ∀ j, soaObs (soaPushBack sW2 vW2) (soaSize sW2) j = some (vW2 j)) :=
  ⟨by decide, C3_push_back_appends ([] : AoSStorage FNat2) sW2 vW2 (by decide)⟩

/-- Claim C4: for both layouts and every in-bounds position, writing a value to
a field through the element view at that position and reading the same field
through a fresh access at the same position yields the written value. -/
theorem C4_write_through (a : AoSStorage F) (s : SoAStorage F)
    (pos : Nat) (j : Fin (n + 1)) (v : F j)
    (hinv : ∀ i, (s i).length = soaSize s)
    (ha : pos < aosSize a) (hs : pos < soaSize s) :
    aosObs (aosFieldWrite a pos j v) pos j = some v ∧
    soaObs (soaFieldWrite s pos j v) pos j = some v := by
  constructor
  · simp only [aosObs, aosFieldWrite, aosSize] at ha ⊢
    rw [dif_pos ha, List.getElem?_set, if_pos rfl, if_pos ha]
    simp
  · simp only [soaObs, soaFieldWrite]
    rw [Function.update_same, List.getElem?_set, if_pos rfl, if_pos (by rw [hinv j]; exact hs)]

/-- Claim C4, witness: writing field 0 at position 0 of concrete one-record
containers of both layouts and reading it back. -/
theorem C4_witness :
    (∀ i, (sW4 i).length = soaSize sW4) ∧ 0 < aosSize aW4 ∧ 0 < soaSize sW4 ∧
    (aosObs (aosFieldWrite aW4 0 0 5) 0 0 = some 5 ∧
     soaObs (soaFieldWrite sW4 0 0 5) 0 0 = some 5) :=
  ⟨by decide, by decide, by decide,
    C4_write_through aW4 sW4 0 0 5 (by decide) (by decide) (by decide)⟩

/-- Claim C5 (amended): constructing a container of initial size N yields
size() equal to N for the AoS layout at every N, and for the SoA layout exactly
when N is below 2 ^ 32 (the constructor funnels N through resize, whose SoA
implementation truncates to an unsigned parameter).  The unamended claim fails
at N = 2 ^ 32, see the counterexample. -/
theorem C5_construct_size (d : ItemT F) (N : Nat) :
    aosSize (aosConstruct d N) = N ∧ (N < 2 ^ 32 → soaSize (soaConstruct d N) = N) := by
  constructor
  · simp only [aosSize, aosConstruct, aosResize]
    exact listResize_length [] N d
  · intro hN
    simp only [soaSize, soaConstruct, soaResize]
    rw [Nat.mod_eq_of_lt hN]
    exact listResize_length [] N (d 0)

/-- Claim C5, counterexample to the claim as stated: an SoA container
constructed with initial size 2 ^ 32 reports size() = 2 ^ 32 mod 2 ^ 32 = 0,
not 2 ^ 32. -/
theorem C5_counterexample : soaSize (soaConstruct dNat1 (2 ^ 32)) ≠ 2 ^ 32 := by
  simp only [soaSize, soaConstruct, soaResize]
  rw [Nat.mod_self, listResize_length]
  norm_num

/-- Claim C5, witness: the amended theorem at a concrete in-range size. -/
theorem C5_witness : 3 < 2 ^ 32 ∧ soaSize (soaConstruct dNat2 3) = 3 :=
  ⟨by norm_num, (C5_construct_size dNat2 3).2 (by norm_num)⟩

/-- Claim C6: walking from begin() to end() with the operator-not-equal loop
guard and single-step increment visits exactly the positions 0 .. size() - 1,
in strictly ascending order, each exactly once (the list of dereferenced
positions is List.range of the size, which is strictly sorted and has no
duplicates).  The fuel parameter only bounds the walk so it is total; any fuel
of at least size() suffices. -/
theorem C6_iteration_order (cid sz fuel : Nat) (hfuel : sz ≤ fuel) :
    iterLoop fuel (beginIterM cid) (endIterM cid sz) = List.range sz ∧
    (iterLoop fuel (beginIterM cid) (endIterM cid sz)).Pairwise (· < ·) ∧
    (iterLoop fuel (beginIterM cid) (endIterM cid sz)).Nodup := by
  have he : iterLoop fuel (beginIterM cid) (endIterM cid sz) = List.range sz := by
    have h := iterLoop_eq_range' (some cid) (some cid) sz fuel 0 hfuel
    rw [Nat.zero_add] at h
    rw [List.range_eq_range']
    exact h
  refine ⟨he, ?_, ?_⟩
  · rw [he]
    exact List.pairwise_lt_range sz
  · rw [he]
    exact List.nodup_range sz

/-- Claim C6, witness: a concrete container of size 2 walked with fuel 2. -/
theorem C6_witness :
    2 ≤ 2 ∧ iterLoop 2 (beginIterM 0) (endIterM 0 2) = List.range 2 :=
  ⟨Nat.le_refl 2, (C6_iteration_order 0 2 2 (Nat.le_refl 2)).1⟩

/-- Claim C7, evaluation at the failing input: the iterator null sentinel is
std::numeric_limits of size_t .infinity(), which for an integral type is 0,
not the maximal representable position.  Hence a default-constructed iterator
and an iterator assigned nullptr sit at position 0, and they compare equal
(operator!= is false) to the end iterator of an empty container and to any
begin iterator, contradicting the claimed distinct maximal sentinel. -/
theorem C7_null_sentinel_is_zero :
    numLimitsInfinitySizeT = 0 ∧
    defaultIterM.mIterPosition = 0 ∧
    (iterAssignNull (beginIterM 3)).mIterPosition = 0 ∧
    iterNeB defaultIterM (endIterM 0 0) = false ∧
    iterNeB (iterAssignNull (beginIterM 3)) (beginIterM 3) = false := by
  decide

/-- Claim C8: copy assignment between iterators copies only the numeric
position (the container-pointer copy is commented out in the source), so the
assigned iterator keeps its original attachment: dereferencing resolves the
container it was constructed with, now at the copied position. -/
theorem C8_assign_copies_position_only {γ δ : Type u} (store : Nat → γ)
    (access : γ → Nat → δ) (dst src : IteratorM) (cid : Nat)
    (hc : dst.mContainer = some cid) :
    (iterAssignM dst src).mContainer = dst.mContainer ∧
    (iterAssignM dst src).mIterPosition = src.mIterPosition ∧
    iterDeref store access (iterAssignM dst src) = some (access (store cid) src.mIterPosition) := by
  refine ⟨rfl, rfl, ?_⟩
  simp [iterDeref, iterAssignM, hc]

/-- Claim C8, witness: assigning an iterator of container 1 at position 1 into
an iterator of container 0 at position 9; the result still dereferences
container 0, at position 1. -/
theorem C8_witness :
    (iterAssignM { mContainer := some 0, mIterPosition := 9 }
      { mContainer := some 1, mIterPosition := 1 }).mContainer = some 0 ∧
    (iterAssignM { mContainer := some 0, mIterPosition := 9 }
      { mContainer := some 1, mIterPosition := 1 }).mIterPosition = 1 ∧
    iterDeref (fun _ => [10, 20, 30]) (fun l p => l.getD p 0)
      (iterAssignM { mContainer := some 0, mIterPosition := 9 }
        { mContainer := some 1, mIterPosition := 1 }) = some 20 :=
  C8_assign_copies_position_only (fun _ => [10, 20, 30]) (fun l p => l.getD p 0)
    { mContainer := some 0, mIterPosition := 9 } { mContainer := some 1, mIterPosition := 1 }
    0 rfl

/-- Claim C9: the SoA resize path narrows its std::size_t argument to the
unsigned parameter of doResize, so every per-field array is resized to
m mod 2 ^ 32; for every m of at least 2 ^ 32 the resulting size() differs from
the requested m, while the AoS resize path resizes to m exactly. -/
theorem C9_resize_truncation (d : ItemT F) (s : SoAStorage F) (a : AoSStorage F) (m : Nat) :
    (∀ i, ((soaResize d s m) i).length = m % 2 ^ 32) ∧
    (2 ^ 32 ≤ m → soaSize (soaResize d s m) ≠ m) ∧
    aosSize (aosResize d a m) = m := by
  refine ⟨fun i => ?_, fun hm heq => ?_, ?_⟩
  · simp only [soaResize]
    exact listResize_length _ _ _
  · simp only [soaSize, soaResize] at heq
    rw [listResize_length] at heq
    have hlt : m % 2 ^ 32 < 2 ^ 32 := Nat.mod_lt m (by norm_num)
    rw [heq] at hlt
    exact absurd hlt (Nat.not_lt.mpr hm)
  · simp only [aosSize, aosResize]
    exact listResize_length _ _ _

/-- Claim C9, witness: requesting an SoA resize to exactly 2 ^ 32 yields a
size() different from the request. -/
theorem C9_witness :
    2 ^ 32 ≤ 2 ^ 32 ∧ soaSize (soaResize dNat2 sW2 (2 ^ 32)) ≠ 2 ^ 32 :=
  ⟨Nat.le_refl _, (C9_resize_truncation dNat2 sW2 [] (2 ^ 32)).2.1 (Nat.le_refl _)⟩

/-- Claim C10: assigning an lvalue of the field type to the ref_wrap proxy of
an SoA element view resolves to the implicitly generated assignment operator
(via the converting constructor), which rebinds the transient proxy instead of
writing the per-field array, so the memory is unchanged and the written value
is lost with the temporary view; only an rvalue assignment selects the
user-declared operator taking T&& and writes through to the array element. -/
theorem C10_lvalue_assignment_lost {α : Type u} (m : RWMem α) (pos : Nat) (v : α) :
    (refWrapAssignLval m (soaProxyAt pos)).2 = m ∧
    (refWrapAssignLval m (soaProxyAt pos)).1.target = RWTarget.localVar ∧
    (refWrapWriteRval m (soaProxyAt pos) v).arr = m.arr.set pos v :=
  ⟨rfl, rfl, rfl⟩
